import Mathlib

/-!
Verification of the batch-transcription tool (`src/transcribe.py`) against its
natural-language specification.

The program is embedded shallowly:
  * a directory is a list of top-level entry names (filesystem enumeration
    order);
  * `Path.glob("*" ++ ext)` for a literal `ext` (no wildcard characters)
    matches exactly the names ending with `ext` (fnmatch semantics; pathlib's
    glob does not special-case names beginning with a dot);
  * the HTTP layer is simulated by an `HttpResponse` value (status, body text,
    and the result of JSON-parsing the body); `requests` raises `HTTPError`
    from `raise_for_status()` exactly when `400 <= status < 600`;
  * the filesystem that receives output artifacts is an association list from
    path to content, newest write first, so a later write to the same path
    shadows (overwrites) an earlier one;
  * Python `str.strip()` strips leading and trailing whitespace,
    `str.upper()`/`str.lower()` are character maps (all strings involved are
    ASCII), and f-string number interpolation is `toString`.
-/

namespace Transcribe

/-- `SUPPORTED_EXTENSIONS` from `transcribe.py`. -/
def SUPPORTED_EXTENSIONS : List String :=
  [".mp4", ".mp3", ".wav", ".m4a", ".flac", ".ogg", ".webm"]

/-- Uppercase one ASCII character. -/
def asciiUpper (c : Char) : Char :=
  if 97 ≤ c.toNat ∧ c.toNat ≤ 122 then Char.ofNat (c.toNat - 32) else c

/-- Lowercase one ASCII character. -/
def asciiLower (c : Char) : Char :=
  if 65 ≤ c.toNat ∧ c.toNat ≤ 90 then Char.ofNat (c.toNat + 32) else c

/-- Python `str.upper()` restricted to ASCII strings. -/
def pyUpper (s : String) : String := String.mk (s.data.map asciiUpper)

/-- Python `str.lower()` restricted to ASCII strings. -/
def pyLower (s : String) : String := String.mk (s.data.map asciiLower)

/-- Does `name` end with `tail`?  (`l.drop (l.length - p.length) = p`.) -/
def ends_with (name tail : String) : Bool :=
  name.data.drop (name.data.length - tail.data.length) == tail.data

/-- `folder.glob("*" ++ ext)` for a literal `ext` (no wildcard characters):
fnmatch semantics make the pattern match exactly the entries whose name ends
with `ext`; they are returned in enumeration order. -/
def glob_matches (entries : List String) (ext : String) : List String :=
  entries.filter (fun name => ends_with name ext)

/-- `find_audio_files` from `transcribe.py`: for each supported extension, in
order, extend the accumulator with the matches of the lowercase pattern and
then the matches of the uppercase pattern. -/
def find_audio_files (entries : List String) : List String :=
  SUPPORTED_EXTENSIONS.foldl
    (fun files ext =>
      files ++ glob_matches entries ext ++ glob_matches entries (pyUpper ext))
    []

/-! ## The parsed API response (`TranscriptionResult`)

Each level of the JSON shape that `format_transcript` touches is optional:
a missing key is `none`.  A JSON utterance `{speaker: n, transcript: s}` may
lack either key. -/

/-- One utterance of a diarized response. -/
structure Utterance where
  speaker : Option Int
  transcript : Option String
deriving DecidableEq, Repr

/-- One candidate transcription of a channel. -/
structure Alternative where
  transcript : Option String
deriving DecidableEq, Repr

/-- One audio channel of the response. -/
structure Channel where
  alternatives : Option (List Alternative)
deriving DecidableEq, Repr

/-- The `results` object of the response. -/
structure Results where
  utterances : Option (List Utterance)
  channels : Option (List Channel)
deriving DecidableEq, Repr

/-- The whole parsed response. -/
structure DGResult where
  results : Option Results
deriving DecidableEq, Repr

/-- Python whitespace as stripped by `str.strip()` (ASCII portion). -/
def isPyWS (c : Char) : Bool := c = ' ' || c = '\t' || c = '\n' || c = '\r'

/-- Python `str.strip()`: remove leading and trailing whitespace. -/
def py_strip (s : String) : String :=
  String.mk (((s.data.dropWhile isPyWS).reverse.dropWhile isPyWS).reverse)

/-- Python `sep.join(lines)` for `sep = "\n\n"`. -/
def join_blank : List String → String
  | [] => ""
  | [s] => s
  | s :: rest => s ++ "\n\n" ++ join_blank rest

/-- `result.get("results", {})`. -/
def resultsOf (r : DGResult) : Results := r.results.getD ⟨none, none⟩

/-- `"utterances" in result.get("results", {})`, together with the value:
the utterance list when the key is present. -/
def utterOf (r : DGResult) : Option (List Utterance) := (resultsOf r).utterances

/-- `format_transcript` from `transcribe.py`. -/
def format_transcript (result : DGResult) (diarization : Bool) : String :=
  let res := resultsOf result
  if diarization && res.utterances.isSome then
    join_blank
      ((res.utterances.getD []).map (fun u =>
        "[Speaker " ++ toString (u.speaker.getD 0) ++ "]: "
          ++ py_strip (u.transcript.getD "")))
  else
    match res.channels.getD [] with
    | [] => ""
    | c :: _ =>
      match c.alternatives.getD [] with
      | [] => ""
      | a :: _ => a.transcript.getD ""

/-! ## Spec-side formatter descriptions (for refinement comparison) -/

/-- Spec wording: one line per utterance of the form
`[Speaker <n>]: <trimmed transcript text>`; missing speaker id defaults to 0;
missing transcript yields an empty text (the line still emitted). -/
def utterance_line (u : Utterance) : String :=
  "[Speaker " ++ toString (u.speaker.getD 0) ++ "]: " ++ py_strip (u.transcript.getD "")

/-- Spec wording: the per-utterance lines joined by blank lines. -/
def spec_diarized_format (utts : List Utterance) : String :=
  join_blank (utts.map utterance_line)

/-- Spec wording: the first channel's first alternative's transcript text, if
present; if no channels or no alternatives exist, the empty string. -/
def first_alternative_transcript (r : DGResult) : String :=
  match r.results with
  | none => ""
  | some res =>
    match res.channels with
    | none => ""
    | some [] => ""
    | some (c :: _) =>
      match c.alternatives with
      | none => ""
      | some [] => ""
      | some (a :: _) => a.transcript.getD ""

/-! ## Transcription client -/

/-- `if language:` — a Python string option is truthy when it is present and
non-empty. -/
def pyTruthy (o : Option String) : Bool :=
  match o with
  | none => false
  | some s => !s.isEmpty

/-- The query-parameter dict built by `transcribe_file`, as the association
list in insertion order: the four fixed parameters, then `language` when the
option is truthy, then the three diarization parameters when requested. -/
def build_params (language : Option String) (diarization : Bool) :
    List (String × String) :=
  let base := [("punctuate", "true"), ("model", "nova-3"),
               ("smart_format", "true"), ("paragraphs", "true")]
  let withLang :=
    if pyTruthy language then base ++ [("language", language.getD "")] else base
  if diarization then
    withLang ++ [("diarize", "true"), ("utterances", "true"), ("utt_split", "2.0")]
  else withLang

/-- A simulated HTTP response: status code, body text, and the outcome of
parsing the body as JSON (`none` when the body is malformed, in which case
`response.json()` raises). -/
structure HttpResponse where
  status : Nat
  text : String
  jsonBody : Option DGResult
deriving DecidableEq, Repr

/-- The per-file error kinds that can escape one iteration of the batch loop
in `main` (all are caught there). `apiError` is `requests.exceptions.HTTPError`
carrying the response's status code and body text. -/
inductive PerFileError where
  | apiError (status : Nat) (body : String)
  | transportError (msg : String)
  | parseError (msg : String)
  | ioError (msg : String)
deriving DecidableEq, Repr

/-- The tail of `transcribe_file` from `transcribe.py`, given the response the
POST produced: `response.raise_for_status()` raises `HTTPError` exactly when
`400 <= status < 600` (the `requests` library's documented behavior), and
otherwise `response.json()` returns the parsed body or raises a parse error. -/
def transcribe_file (response : HttpResponse) : Except PerFileError DGResult :=
  if 400 ≤ response.status ∧ response.status < 600 then
    .error (.apiError response.status response.text)
  else
    match response.jsonBody with
    | none => .error (.parseError response.text)
    | some j => .ok j

/-- Spec wording: the 2xx class is the successful one. -/
def is_success (status : Nat) : Bool := 200 ≤ status && status < 300

/-! ## Output-path computation

`output_path = audio_file.with_suffix("." + args.ext.lstrip("."))` — modelled
on bare file names, following CPython's `PurePath.suffix` / `with_suffix`. -/

/-- Python `str.lstrip(".")`: remove every leading dot. -/
def lstripDots (s : String) : String := String.mk (s.toList.dropWhile (· = '.'))

/-- Split a name at its last dot: `some (pre, suf)` when the name is
`pre ++ "." ++ suf` with `suf` dot-free; `none` when the name has no dot. -/
def splitLastDot : List Char → Option (List Char × List Char)
  | [] => none
  | c :: cs =>
    match splitLastDot cs with
    | some (pre, suf) => some (c :: pre, suf)
    | none => if c = '.' then some ([], cs) else none

/-- CPython `PurePath.suffix` on a file name: the substring from the last dot,
unless that dot is the first or last character of the name. -/
def py_suffix (name : String) : String :=
  match splitLastDot name.toList with
  | none => ""
  | some (pre, suf) => if pre ≠ [] ∧ suf ≠ [] then String.mk ('.' :: suf) else ""

/-- CPython `PurePath.with_suffix` on a file name; `none` models the
`ValueError` raised for an invalid suffix or an empty name. -/
def with_suffix (name : String) (suffix : String) : Option String :=
  if '/' ∈ suffix.data then none
  else if (suffix.data ≠ [] ∧ suffix.data.head? ≠ some '.') ∨ suffix.data = ['.'] then none
  else if name = "" then none
  else
    let old := py_suffix name
    if old = "" then some (name ++ suffix)
    else some (String.mk (name.data.take (name.data.length - old.data.length)) ++ suffix)

/-- `audio_file.with_suffix(f".{args.ext.lstrip(chr(46))}")` from `main`. -/
def output_path (name : String) (ext : String) : Option String :=
  with_suffix name ("." ++ lstripDots ext)

/-! ## Batch runner

The filesystem receiving artifacts is an association list, newest write first:
`save_transcription` opens the path in `"w"` mode and writes the full content,
so a write is an unconditional overwrite and a lookup sees the latest write. -/

/-- The artifact store: path ↦ content, newest first. -/
abbrev FS := List (String × String)

/-- Read an artifact: the most recent write to the path. -/
def readFS (fs : FS) (path : String) : Option String := List.lookup path fs

/-- `save_transcription` from `transcribe.py`: a full-content overwrite. -/
def save_transcription (fs : FS) (output_p content : String) : FS :=
  (output_p, content) :: fs

/-- One iteration of the loop in `main`. The output path is computed before
the `try` block, so an invalid output extension crashes the run (`none`).
Inside the `try`, a failure of the client (`fetch`) or of the write
(`writeFail`) is caught and the loop continues with the store unchanged;
on success the formatted transcript is saved. -/
def process_file (fetch : String → Except PerFileError DGResult)
    (writeFail : String → Bool) (diarization : Bool) (outExt : String)
    (fs : FS) (file : String) : Option FS :=
  match output_path file outExt with
  | none => none
  | some out =>
    match fetch file with
    | .error _ => some fs
    | .ok result =>
      if writeFail out then some fs
      else some (save_transcription fs out (format_transcript result diarization))

/-- The loop of `main` over the discovered files, in order, followed by normal
completion (exit code 0). `none` models an uncaught exception aborting the
run. -/
def run_batch (fetch : String → Except PerFileError DGResult)
    (writeFail : String → Bool) (diarization : Bool) (outExt : String) :
    List String → FS → Option (FS × Nat)
  | [], fs => some (fs, 0)
  | f :: rest, fs =>
    match process_file fetch writeFail diarization outExt fs f with
    | none => none
    | some fs' => run_batch fetch writeFail diarization outExt rest fs'

/-! ## Helper lemmas -/

/-- Unfolding the discoverer's fold: the matches of the fourteen glob patterns
(for each allow-listed extension, lowercase then uppercase), concatenated in
that order. -/
lemma find_audio_files_eq_join (entries : List String) :
    find_audio_files entries =
      (SUPPORTED_EXTENSIONS.map (fun ext =>
        glob_matches entries ext ++ glob_matches entries (pyUpper ext))).flatten := by
  simp [find_audio_files, SUPPORTED_EXTENSIONS, List.flatten, List.append_assoc]

/-! ## Claims -/

/-- Claim C2 as stated is false: the discoverer globs only the all-lowercase
and all-uppercase form of each extension, so a file with the mixed-case
extension `.Mp3` — allow-listed case-insensitively — is not returned. -/
theorem claim_C2_counterexample :
    pyLower (py_suffix "a.Mp3") ∈ SUPPORTED_EXTENSIONS ∧
      "a.Mp3" ∉ find_audio_files ["a.Mp3"] := by
  decide

/-- Claim C2 (amended): a top-level entry is returned by the discoverer iff it
is in the directory and its name ends with an allow-listed extension written
either all-lowercase or all-uppercase; extensions outside the allow-list are
never returned. -/
theorem claim_C2_amended (entries : List String) (name : String) :
    name ∈ find_audio_files entries ↔
      name ∈ entries ∧ ∃ ext ∈ SUPPORTED_EXTENSIONS,
        (ends_with name ext = true ∨ ends_with name (pyUpper ext) = true) := by
  rw [find_audio_files_eq_join]
  simp only [List.mem_flatten, List.mem_map, glob_matches, List.mem_append,
    List.mem_filter]
  aesop

/-- Witness for the amended claim C2: a lowercase match is returned, a file
outside the allow-list is not. -/
theorem claim_C2_amended_witness :
    "a.mp4" ∈ find_audio_files ["a.mp4"] ∧
      "e.txt" ∉ find_audio_files ["e.txt"] :=
  ⟨(claim_C2_amended ["a.mp4"] "a.mp4").mpr (by decide),
   fun h => absurd ((claim_C2_amended ["e.txt"] "e.txt").mp h) (by decide)⟩

/-- Claim C9: the discovered sequence is grouped by extension in the fixed
allow-list order, lowercase-pattern matches before uppercase-pattern matches
within each extension, rather than in plain enumeration order: on the
directory `[b.mp3, a.mp4]` the enumeration order is reversed. -/
theorem claim_C9 :
    (∀ entries : List String,
      find_audio_files entries =
        (SUPPORTED_EXTENSIONS.map (fun ext =>
          entries.filter (fun n => ends_with n ext)
            ++ entries.filter (fun n => ends_with n (pyUpper ext)))).flatten)
    ∧ find_audio_files ["b.mp3", "a.mp4"] = ["a.mp4", "b.mp3"] :=
  ⟨fun entries => find_audio_files_eq_join entries, by decide⟩

/-- Claim C3: when diarization is requested and the result carries an
utterances list, the formatter emits one line per utterance of the form
`[Speaker <n>]: <trimmed text>` joined by blank lines, defaulting a missing
speaker id to 0 and a missing transcript to the empty text (the line still
emitted). -/
theorem claim_C3 (r : DGResult) (utts : List Utterance)
    (h : utterOf r = some utts) :
    format_transcript r true = spec_diarized_format utts := by
  simp only [utterOf] at h
  simp only [format_transcript, h, spec_diarized_format]
  rfl

/-- Witness for claim C3: the spec's concrete example
`[{speaker:1, transcript:" hi "}, {speaker:0, transcript:"bye"}]`. -/
theorem claim_C3_witness :
    utterOf ⟨some ⟨some [⟨some 1, some " hi "⟩, ⟨some 0, some "bye"⟩], none⟩⟩
        = some [⟨some 1, some " hi "⟩, ⟨some 0, some "bye"⟩]
      ∧ format_transcript
          ⟨some ⟨some [⟨some 1, some " hi "⟩, ⟨some 0, some "bye"⟩], none⟩⟩ true
        = "[Speaker 1]: hi\n\n[Speaker 0]: bye" :=
  ⟨rfl,
    (claim_C3 ⟨some ⟨some [⟨some 1, some " hi "⟩, ⟨some 0, some "bye"⟩], none⟩⟩
      [⟨some 1, some " hi "⟩, ⟨some 0, some "bye"⟩] rfl).trans (by decide)⟩

/-- Claim C4: when diarization is off, or the result carries no utterances
list, the formatter yields the first channel's first alternative's transcript,
and the empty string when no channels or no alternatives exist. -/
theorem claim_C4 (r : DGResult) (d : Bool) (h : d = false ∨ utterOf r = none) :
    format_transcript r d = first_alternative_transcript r := by
  have hcond : (d && (resultsOf r).utterances.isSome) = false := by
    rcases h with h | h
    · simp [h]
    · simp only [utterOf] at h
      simp [h]
  simp only [format_transcript, hcond, Bool.false_eq_true, if_false]
  rcases r with ⟨_ | ⟨u, _ | (_ | ⟨⟨_ | (_ | ⟨a, as⟩)⟩, cs⟩)⟩⟩ <;>
    simp [resultsOf, first_alternative_transcript]

/-- Witness for claim C4: the spec's concrete example
`channels=[{alternatives:[{transcript:"hello world"}]}]`, diarization off. -/
theorem claim_C4_witness :
    format_transcript ⟨some ⟨none, some [⟨some [⟨some "hello world"⟩]⟩]⟩⟩ false
      = "hello world" :=
  (claim_C4 _ false (Or.inl rfl)).trans (by decide)

/-- Claim C5: the formatter is total — being a Lean function it returns a
string on every result value, every combination of absent fields included —
and a result with no utterances and no channels formats to the empty string
(a valid output, not an error), for both values of the diarization flag. -/
theorem claim_C5 :
    (∀ (r : DGResult) (d : Bool), ∃ s : String, format_transcript r d = s)
    ∧ (∀ (r : DGResult) (d : Bool),
        (utterOf r = none ∨ utterOf r = some []) →
        (resultsOf r).channels.getD [] = [] →
        format_transcript r d = "") := by
  refine ⟨fun r d => ⟨_, rfl⟩, fun r d hu hc => ?_⟩
  rcases hu with hu | hu <;> simp only [utterOf] at hu <;>
    cases d <;> simp [format_transcript, hu, hc, join_blank]

/-- Witness for claim C5: the wholly-empty result formats to the empty
string. -/
theorem claim_C5_witness :
    utterOf ⟨none⟩ = none ∧ (resultsOf ⟨none⟩).channels.getD [] = []
      ∧ format_transcript ⟨none⟩ true = "" :=
  ⟨rfl, rfl, claim_C5.2 ⟨none⟩ true (Or.inl rfl) rfl⟩

/-- Claim C6 as stated is false: a response with the redirection status 300 is
not a success (the successful class is 2xx), yet `raise_for_status` leaves it
alone and the client returns the parsed body instead of raising `ApiError`. -/
theorem claim_C6_counterexample :
    is_success 300 = false ∧
      transcribe_file ⟨300, "redirect", some ⟨none⟩⟩ = .ok ⟨none⟩ :=
  ⟨rfl, rfl⟩

/-- Claim C6 (amended): the client raises `ApiError` carrying exactly the
response's status code and body text iff the status lies in 400–599 (the range
`raise_for_status` treats as an error); informational and redirection statuses
do not raise. -/
theorem claim_C6_amended (resp : HttpResponse) (s : Nat) (b : String) :
    transcribe_file resp = .error (.apiError s b) ↔
      (400 ≤ resp.status ∧ resp.status < 600 ∧ s = resp.status ∧ b = resp.text) := by
  by_cases hcond : 400 ≤ resp.status ∧ resp.status < 600
  · simp only [transcribe_file, if_pos hcond, Except.error.injEq,
      PerFileError.apiError.injEq]
    constructor
    · rintro ⟨rfl, rfl⟩
      exact ⟨hcond.1, hcond.2, rfl, rfl⟩
    · rintro ⟨-, -, rfl, rfl⟩
      exact ⟨rfl, rfl⟩
  · simp only [transcribe_file, if_neg hcond]
    constructor
    · intro h
      cases hj : resp.jsonBody <;> rw [hj] at h <;> simp at h
    · rintro ⟨h4, h6, -, -⟩
      exact absurd ⟨h4, h6⟩ hcond

/-- Witness for claim C6: the spec's concrete example, status 401 with body
`"unauthorized"`. -/
theorem claim_C6_witness :
    transcribe_file ⟨401, "unauthorized", none⟩
      = .error (.apiError 401 "unauthorized") :=
  (claim_C6_amended ⟨401, "unauthorized", none⟩ 401 "unauthorized").mpr
    (by decide)

/-- Claim C7: the query parameters are exactly `punctuate=true`, the fixed
model `nova-3`, `smart_format=true` and `paragraphs=true`, plus
`language=<code>` iff a (non-empty) language code is supplied, plus
`diarize=true`, `utterances=true` and `utt_split=2.0` iff diarization is
requested. -/
theorem claim_C7 (lang : Option String) (d : Bool) (k v : String) :
    (k, v) ∈ build_params lang d ↔
      ((k, v) ∈ ([("punctuate", "true"), ("model", "nova-3"),
          ("smart_format", "true"), ("paragraphs", "true")] : List (String × String))
        ∨ (k = "language" ∧ lang = some v ∧ v ≠ "")
        ∨ (d = true ∧ (k, v) ∈ ([("diarize", "true"), ("utterances", "true"),
            ("utt_split", "2.0")] : List (String × String)))) := by
  rcases lang with _ | s
  · have h0 : pyTruthy none = false := rfl
    cases d <;> simp [build_params, h0]
    aesop
  · by_cases hs : s = ""
    · subst hs
      have h0 : pyTruthy (some "") = false := rfl
      cases d <;> simp [build_params, h0] <;> aesop
    · have h0 : pyTruthy (some s) = true := by
        simp only [pyTruthy, Bool.not_eq_true']
        exact Bool.eq_false_iff.mpr (fun h => hs ((String.isEmpty_iff s).1 h))
      cases d <;> simp [build_params, h0] <;> aesop

/-! ## Path helper lemmas -/

lemma splitLastDot_of_not_mem (cs : List Char) (h : '.' ∉ cs) :
    splitLastDot cs = none := by
  induction cs with
  | nil => rfl
  | cons c cs ih =>
    have hc : ¬ c = '.' := fun he => h (he ▸ List.mem_cons_self c cs)
    have ht : '.' ∉ cs := fun hm => h (List.mem_cons_of_mem _ hm)
    simp [splitLastDot, ih ht, hc]

lemma splitLastDot_append (xs ys : List Char) (h : '.' ∉ ys) :
    splitLastDot (xs ++ '.' :: ys) = some (xs, ys) := by
  induction xs with
  | nil => simp [splitLastDot, splitLastDot_of_not_mem ys h]
  | cons x xs ih => simp [splitLastDot, ih]

lemma data_ne_nil_of_ne_empty (s : String) (h : s ≠ "") : s.data ≠ [] := by
  intro h0
  exact h (String.ext (h0.trans rfl))

lemma data_concat (s e : String) :
    (s ++ "." ++ e).data = s.data ++ '.' :: e.data := by
  simp [String.data_append]

lemma py_suffix_concat (s e : String) (hs : s ≠ "") (he : e ≠ "")
    (hd : '.' ∉ e.data) :
    py_suffix (s ++ "." ++ e) = String.mk ('.' :: e.data) := by
  unfold py_suffix
  rw [show (s ++ "." ++ e).toList = s.data ++ '.' :: e.data from data_concat s e]
  rw [splitLastDot_append s.data e.data hd]
  simp [data_ne_nil_of_ne_empty s hs, data_ne_nil_of_ne_empty e he]

/-- The core of the output-path computation: for a source name with a
(dot-free, non-empty, any-case) extension `e` and a stem `s`, the output path
keeps the stem and carries the configured extension, the original extension
being discarded entirely. -/
lemma output_path_concat (s e ext : String) (hs : s ≠ "") (he : e ≠ "")
    (hd : '.' ∉ e.data) (hx : lstripDots ext ≠ "")
    (hslash : '/' ∉ (lstripDots ext).data) :
    output_path (s ++ "." ++ e) ext = some (s ++ "." ++ lstripDots ext) := by
  have hxd : (lstripDots ext).data ≠ [] := data_ne_nil_of_ne_empty _ hx
  have hsufd : ("." ++ lstripDots ext).data = '.' :: (lstripDots ext).data := by
    simp [String.data_append]
  have hc1 : ¬ ('/' ∈ ("." ++ lstripDots ext).data) := by
    rw [hsufd]
    simp only [List.mem_cons]
    rintro (h | h)
    · exact absurd h (by decide)
    · exact hslash h
  have hc2 : ¬ ((("." ++ lstripDots ext).data ≠ [] ∧
      ("." ++ lstripDots ext).data.head? ≠ some '.') ∨
      ("." ++ lstripDots ext).data = ['.']) := by
    rw [hsufd]
    rintro (⟨-, hhd⟩ | hsingle)
    · exact hhd rfl
    · simp only [List.cons.injEq] at hsingle
      exact hxd hsingle.2
  have hname : ¬ ((s ++ "." ++ e) = "") := by
    intro h0
    have h1 : (s ++ "." ++ e).data = [] := by rw [h0]
    rw [data_concat] at h1
    simp at h1
  have hold : ¬ (String.mk ('.' :: e.data) = "") := by
    intro h0
    have h1 : ('.' :: e.data : List Char) = [] := congrArg String.data h0
    simp at h1
  simp only [output_path, with_suffix, py_suffix_concat s e hs he hd]
  rw [if_neg hc1, if_neg hc2, if_neg hname, if_neg hold]
  congr 1
  apply String.ext
  show (s ++ "." ++ e).data.take
      ((s ++ "." ++ e).data.length - ('.' :: e.data).length)
      ++ ("." ++ lstripDots ext).data = (s ++ "." ++ lstripDots ext).data
  rw [data_concat s e, hsufd, data_concat s (lstripDots ext)]
  have hn : (s.data ++ '.' :: e.data).length - ('.' :: e.data).length
      = s.data.length := by
    rw [List.length_append, List.length_cons]
    omega
  rw [hn, List.take_left]

/-- Witness for claim C7: with a language supplied and diarization on, the
`language` and `diarize` parameters are both present. -/
theorem claim_C7_witness :
    ("language", "en") ∈ build_params (some "en") true ∧
      ("diarize", "true") ∈ build_params (some "en") true :=
  ⟨(claim_C7 (some "en") true "language" "en").mpr (Or.inr (Or.inl (by decide))),
   (claim_C7 (some "en") true "diarize" "true").mpr (Or.inr (Or.inr (by decide)))⟩

/-- Claim C8: for a source file `<stem>.<e>` (extension in any letter case)
and a configured output extension, the output path keeps the stem and replaces
the extension by the configured one with its leading dots stripped; the case
of the original extension never reaches the output name. -/
theorem claim_C8 (s e ext : String) (hs : s ≠ "") (he : e ≠ "")
    (hd : '.' ∉ e.data) (hx : lstripDots ext ≠ "")
    (hslash : '/' ∉ (lstripDots ext).data) :
    output_path (s ++ "." ++ e) ext = some (s ++ "." ++ lstripDots ext) :=
  output_path_concat s e ext hs he hd hx hslash

/-- Witness for claim C8: the spec's concrete example, `clip.MP4` with
`--ext srt` giving `clip.srt`. -/
theorem claim_C8_witness : output_path "clip.MP4" "srt" = some "clip.srt" :=
  claim_C8 "clip" "MP4" "srt" (by decide) (by decide) (by decide) (by decide)
    (by decide)

/-- Claim C10: two discovered files with the same stem but different
extensions are assigned the identical output path, and writing is an
unconditional overwrite: after processing both, the artifact at that path
holds the later file's transcript, the earlier one having been silently
replaced (a read returns the later content). -/
theorem claim_C10 :
    (∀ (s e1 e2 ext : String), s ≠ "" → e1 ≠ "" → e2 ≠ "" →
        '.' ∉ e1.data → '.' ∉ e2.data →
        lstripDots ext ≠ "" → '/' ∉ (lstripDots ext).data →
        output_path (s ++ "." ++ e1) ext = output_path (s ++ "." ++ e2) ext)
    ∧ (∀ (fetch : String → Except PerFileError DGResult)
        (writeFail : String → Bool) (d : Bool) (ext f1 f2 o : String)
        (r1 r2 : DGResult) (fs : FS),
        fetch f1 = .ok r1 → fetch f2 = .ok r2 →
        output_path f1 ext = some o → output_path f2 ext = some o →
        writeFail o = false →
        run_batch fetch writeFail d ext [f1, f2] fs =
          some ((o, format_transcript r2 d) :: (o, format_transcript r1 d) :: fs, 0)
        ∧ readFS ((o, format_transcript r2 d) :: (o, format_transcript r1 d) :: fs) o
            = some (format_transcript r2 d)) := by
  constructor
  · intro s e1 e2 ext hs he1 he2 hd1 hd2 hx hslash
    rw [output_path_concat s e1 ext hs he1 hd1 hx hslash,
      output_path_concat s e2 ext hs he2 hd2 hx hslash]
  · intro fetch writeFail d ext f1 f2 o r1 r2 fs h1 h2 ho1 ho2 hw
    constructor
    · simp [run_batch, process_file, h1, h2, ho1, ho2, hw, save_transcription]
    · simp [readFS, List.lookup]

/-- Witness for claim C10: `a.mp3` then `a.wav`, both transcribed, both mapped
to `a.txt`; the store ends with the second transcript on top and a read of
`a.txt` returns it. -/
theorem claim_C10_witness :
    run_batch
        (fun f => if f = "a.mp3"
          then .ok ⟨some ⟨none, some [⟨some [⟨some "first"⟩]⟩]⟩⟩
          else .ok ⟨some ⟨none, some [⟨some [⟨some "second"⟩]⟩]⟩⟩)
        (fun _ => false) false "txt" ["a.mp3", "a.wav"] [] =
      some ([("a.txt", "second"), ("a.txt", "first")], 0)
    ∧ readFS [("a.txt", "second"), ("a.txt", "first")] "a.txt" = some "second" :=
  claim_C10.2
    (fun f => if f = "a.mp3"
      then .ok ⟨some ⟨none, some [⟨some [⟨some "first"⟩]⟩]⟩⟩
      else .ok ⟨some ⟨none, some [⟨some [⟨some "second"⟩]⟩]⟩⟩)
    (fun _ => false) false "txt" "a.mp3" "a.wav" "a.txt"
    ⟨some ⟨none, some [⟨some [⟨some "first"⟩]⟩]⟩⟩
    ⟨some ⟨none, some [⟨some [⟨some "second"⟩]⟩]⟩⟩ []
    rfl rfl (by decide) (by decide) rfl

/-- Claim C1: a per-file error of any kind (API, transport, parse, or local
I/O) raised for the second of three discovered files is caught at the batch
loop and the run continues: the first and third files' artifacts are written,
nothing is written for the failed file, and the run completes normally with
exit code 0. -/
theorem claim_C1 (fetch : String → Except PerFileError DGResult)
    (writeFail : String → Bool) (d : Bool) (ext f1 f2 f3 o1 o2 o3 : String)
    (r1 r3 : DGResult) (e : PerFileError) (fs : FS)
    (h1 : fetch f1 = .ok r1) (h2 : fetch f2 = .error e)
    (h3 : fetch f3 = .ok r3)
    (ho1 : output_path f1 ext = some o1) (ho2 : output_path f2 ext = some o2)
    (ho3 : output_path f3 ext = some o3)
    (hw1 : writeFail o1 = false) (hw3 : writeFail o3 = false)
    (hne : o1 ≠ o3) :
    run_batch fetch writeFail d ext [f1, f2, f3] fs =
      some ((o3, format_transcript r3 d) :: (o1, format_transcript r1 d) :: fs, 0)
    ∧ readFS ((o3, format_transcript r3 d) :: (o1, format_transcript r1 d) :: fs)
        o1 = some (format_transcript r1 d)
    ∧ readFS ((o3, format_transcript r3 d) :: (o1, format_transcript r1 d) :: fs)
        o3 = some (format_transcript r3 d) := by
  have hbeq : (o1 == o3) = false := beq_eq_false_iff_ne.mpr hne
  refine ⟨?_, ?_, ?_⟩
  · simp [run_batch, process_file, h1, h2, h3, ho1, ho2, ho3, hw1, hw3,
      save_transcription]
  · simp [readFS, List.lookup, hbeq]
  · simp [readFS, List.lookup]

/-- Witness for claim C1: the spec's 3-file scenario with the middle file
failing on an `ApiError` (status 401, body `"unauthorized"`): `a.mp3` and
`c.mp3` are transcribed and written, the run completes with exit code 0. -/
theorem claim_C1_witness :
    run_batch
        (fun f => if f = "b.mp3"
          then .error (.apiError 401 "unauthorized") else .ok ⟨none⟩)
        (fun _ => false) false "txt" ["a.mp3", "b.mp3", "c.mp3"] [] =
      some ([("c.txt", ""), ("a.txt", "")], 0)
    ∧ readFS [("c.txt", ""), ("a.txt", "")] "a.txt" = some ""
    ∧ readFS [("c.txt", ""), ("a.txt", "")] "c.txt" = some "" :=
  claim_C1
    (fun f => if f = "b.mp3"
      then .error (.apiError 401 "unauthorized") else .ok ⟨none⟩)
    (fun _ => false) false "txt" "a.mp3" "b.mp3" "c.mp3" "a.txt" "b.txt" "c.txt"
    ⟨none⟩ ⟨none⟩ (.apiError 401 "unauthorized") []
    rfl rfl rfl (by decide) (by decide) (by decide) rfl rfl (by decide)

end Transcribe
